import Mathlib

/-!
Verification development for the pointage-api session lifecycle engine
(`src/db.js`): weekday normalization, school-year calendar generation,
idempotent session materialization, the session status state machine,
the attendance ledger and the class/session access guards.

Modelling conventions:
* JavaScript numbers are modelled as rationals (`ℚ`); `NaN` and non-numeric
  values get their own constructors in `JSVal`.  All comparisons the source
  performs on these numbers are exact at the magnitudes involved, so `ℚ`
  is a faithful model of the observable behaviour.
* Calendar dates are modelled as day numbers (days since 1970-01-01, UTC).
  The source pins every `Date` to 12:00 UTC before comparing or stepping,
  so whole-day arithmetic is exact and `d <= e` on `Date` values coincides
  with `≤` on day numbers.
* The relational store is modelled as lists of rows; SQL statements of the
  source are translated statement by statement.
-/

namespace Pointage

/-- A JavaScript value as received in a request body: a string, a (non-NaN)
number, `NaN`, or anything else (`null`, `undefined`, booleans, objects). -/
inductive JSVal where
  | str (s : String)
  | num (q : ℚ)
  | nan
  | other
deriving DecidableEq

/-- JavaScript `String.prototype.toLowerCase`, which on the ASCII alphabet
used by the weekday table agrees with per-character lower-casing. -/
def jsToLowerCase (s : String) : String := ⟨s.data.map Char.toLower⟩

/-- The `ISO_FROM_FR` lookup table of `src/db.js` (French weekday names to
ISO weekday numbers). -/
def ISO_FROM_FR (s : String) : Option ℚ :=
  if s = "dimanche" then some 7
  else if s = "lundi" then some 1
  else if s = "mardi" then some 2
  else if s = "mercredi" then some 3
  else if s = "jeudi" then some 4
  else if s = "vendredi" then some 5
  else if s = "samedi" then some 6
  else none

/-- `normalizeToIsoWeekday` from `src/db.js`: strings are looked up in the
French table after lower-casing; numbers in `[1,7]` are returned unchanged,
otherwise numbers in `[0,6]` are incremented; everything else maps to the
null sentinel.  Note the source performs no integrality check on numbers. -/
def normalizeToIsoWeekday : JSVal → Option ℚ
  | JSVal.str s => ISO_FROM_FR (jsToLowerCase s)
  | JSVal.num q =>
      if 1 ≤ q ∧ q ≤ 7 then some q
      else if 0 ≤ q ∧ q ≤ 6 then some (q + 1)
      else none
  | JSVal.nan => none
  | JSVal.other => none

/-- JavaScript day-of-week (`Date.prototype.getUTCDay`): day number 0 is
1970-01-01, a Thursday, hence the offset 4.  0 = Sunday, 6 = Saturday. -/
def jsDow (d : ℕ) : ℕ := (d + 4) % 7

/-- JavaScript's `ToIntegerOrInfinity` truncation on a finite number:
truncation toward zero. -/
def jsTrunc (q : ℚ) : ℤ := if 0 ≤ q then ⌊q⌋ else ⌈q⌉

/-- JavaScript's `%` operator on finite numbers: remainder with the sign of
the dividend, `a - n * trunc (a / n)`. -/
def jsMod (a n : ℚ) : ℚ := a - n * (jsTrunc (a / n) : ℚ)

/-- `jsDowFromIso` from `src/db.js`: `iso % 7` (ISO 7 = Sunday becomes JS 0). -/
def jsDowFromIso (iso : ℚ) : ℚ := jsMod iso 7

/-- `firstOnOrAfter` from `src/db.js`: advance `start` by
`(jsTarget - getUTCDay() + 7) % 7` days.  The day delta passes through
`setUTCDate`, which truncates non-integer values toward zero (the delta is
non-negative here, so truncation is the floor). -/
def firstOnOrAfter (s : ℕ) (jsTarget : ℚ) : ℕ :=
  s + (jsTrunc (jsMod (jsTarget - (jsDow s : ℚ) + 7) 7)).toNat

/-- Fuelled form of the `while (d <= e)` loop of `enumerateDatesByWeekday`
(structural recursion so that the kernel can evaluate it; `enumLoop_eq`
below recovers the literal while-loop unfolding). -/
def enumLoopF (e : ℕ) : ℕ → ℕ → List ℕ
  | 0, _ => []
  | fuel + 1, d => if d ≤ e then d :: enumLoopF e fuel (d + 7) else []

/-- The `while (d <= e)` loop of `enumerateDatesByWeekday`: collect `d`,
`d+7`, `d+14`, ... while the day number stays within `e`.  `e + 1 - d`
steps of fuel always suffice because `d` grows by 7 each iteration. -/
def enumLoop (e d : ℕ) : List ℕ := enumLoopF e (e + 1 - d) d

/-- Fuel is irrelevant as soon as it is sufficient. -/
theorem enumLoopF_fuel_irrel (e : ℕ) :
    ∀ f₁ f₂ d, e + 1 - d ≤ f₁ → e + 1 - d ≤ f₂ →
      enumLoopF e f₁ d = enumLoopF e f₂ d := by
  intro f₁
  induction f₁ with
  | zero =>
    intro f₂ d h₁ h₂
    have hd : e < d := by omega
    cases f₂ with
    | zero => rfl
    | succ f₂ => simp [enumLoopF, Nat.not_le.mpr hd]
  | succ f₁ ih =>
    intro f₂ d h₁ h₂
    cases f₂ with
    | zero =>
      have hd : e < d := by omega
      simp [enumLoopF, Nat.not_le.mpr hd]
    | succ f₂ =>
      by_cases hd : d ≤ e
      · simp only [enumLoopF, if_pos hd]
        rw [ih f₂ (d + 7) (by omega) (by omega)]
      · simp [enumLoopF, hd]

/-- `enumLoop` satisfies the literal while-loop recurrence of the source. -/
theorem enumLoop_eq (e d : ℕ) :
    enumLoop e d = if d ≤ e then d :: enumLoop e (d + 7) else [] := by
  unfold enumLoop
  by_cases hd : d ≤ e
  · have h1 : e + 1 - d = (e - d) + 1 := by omega
    rw [if_pos hd, h1]
    simp only [enumLoopF, if_pos hd]
    rw [enumLoopF_fuel_irrel e (e - d) (e + 1 - (d + 7)) (d + 7) (by omega) (by omega)]
  · rw [if_neg hd]
    have h0 : e + 1 - d = 0 ∨ ∃ f, e + 1 - d = f + 1 := by
      cases (e + 1 - d) with
      | zero => exact Or.inl rfl
      | succ f => exact Or.inr ⟨f, rfl⟩
    rcases h0 with h0 | ⟨f, hf⟩
    · rw [h0]; rfl
    · rw [hf]; simp [enumLoopF, hd]

/-- `enumerateDatesByWeekday` from `src/db.js`: anchor at the first date on
or after `s` whose JS day-of-week matches `isoDow % 7`, then step by 7 days
until exceeding `e`.  `s` and `e` are already whole-day numbers (the source
re-pins both to 12:00 UTC before the loop). -/
def enumerateDatesByWeekday (s e : ℕ) (isoDow : ℚ) : List ℕ :=
  enumLoop e (firstOnOrAfter s (jsDowFromIso isoDow))

/-- Gregorian leap-year test. -/
def isLeap (y : ℕ) : Bool := (y % 4 = 0 && y % 100 ≠ 0) || y % 400 = 0

/-- Days in a calendar year. -/
def daysInYear (y : ℕ) : ℕ := if isLeap y then 366 else 365

/-- Days between January 1 of 1970 and January 1 of year `1970 + n`. -/
def daysBeforeYearAux : ℕ → ℕ
  | 0 => 0
  | n + 1 => daysBeforeYearAux n + daysInYear (1970 + n)

/-- Days between 1970-01-01 and January 1 of year `y` (for `y ≥ 1970`;
the application only handles school years well after 1970). -/
def daysBeforeYear (y : ℕ) : ℕ := daysBeforeYearAux (y - 1970)

/-- Cumulative day count before month `m` (1-based) in a year. -/
def monthOffset (leap : Bool) (m : ℕ) : ℕ :=
  let base :=
    if m ≤ 1 then 0 else if m = 2 then 31 else if m = 3 then 59
    else if m = 4 then 90 else if m = 5 then 120 else if m = 6 then 151
    else if m = 7 then 181 else if m = 8 then 212 else if m = 9 then 243
    else if m = 10 then 273 else if m = 11 then 304 else 334
  if leap ∧ 3 ≤ m then base + 1 else base

/-- Day number (days since 1970-01-01) of the calendar date `y-m-d`
(`m` 1-based). -/
def daysSinceEpoch (y m d : ℕ) : ℕ :=
  daysBeforeYear y + monthOffset (isLeap y) m + (d - 1)

/-- `utcNoon(y, m0, d)` from `src/db.js` with its 0-based month, projected
to a day number (the 12:00 UTC time component cancels throughout). -/
def utcNoon (y m0 d : ℕ) : ℕ := daysSinceEpoch y (m0 + 1) d

/-- `schoolStartYear` from `src/db.js`: the active school year starts this
calendar year iff the current UTC month is at least September. -/
def schoolStartYear (nowY nowM : ℕ) : ℕ := if 9 ≤ nowM then nowY else nowY - 1

/-- `getActiveSchoolYear` from `src/db.js`: September 1 to July 14. -/
def getActiveSchoolYear (nowY nowM : ℕ) : ℕ × ℕ :=
  let sy := schoolStartYear nowY nowM
  (utcNoon sy 8 1, utcNoon (sy + 1) 6 14)

/-! ## Relational store model -/

/-- A row of the `classes` table. -/
structure ClassRow where
  id : ℚ
  nom : String
  description : Option String
  user_id : Option ℚ
  weekday : Option ℚ
deriving DecidableEq

/-- A row of the `class_users` co-manager link table. -/
structure ClassUserRow where
  class_id : ℚ
  user_id : ℚ
deriving DecidableEq

/-- A row of the `students` table. -/
structure StudentRow where
  id : ℚ
  firstname : Option String
  lastname : Option String
  class_id : Option ℚ
  phone : Option String
  weekday : Option ℚ
deriving DecidableEq

/-- A row of the `sessions` table.  Dates are day numbers. -/
structure SessionRow where
  id : ℚ
  class_id : ℚ
  date : ℕ
  status : String
  note : Option String
deriving DecidableEq

/-- A row of the `attendances` table. -/
structure AttendanceRow where
  student_id : ℚ
  session_id : ℚ
  status : String
  comment : Option String
deriving DecidableEq

/-- The persistent store.  `nextSessionId` and `nextStudentId` model the
serial id sequences. -/
structure DB where
  classes : List ClassRow
  class_users : List ClassUserRow
  students : List StudentRow
  sessions : List SessionRow
  attendances : List AttendanceRow
  nextSessionId : ℕ
  nextStudentId : ℕ
deriving DecidableEq

/-- `SELECT status FROM sessions WHERE id = $1` (first matching row). -/
def findSession (db : DB) (sid : ℚ) : Option SessionRow :=
  db.sessions.find? fun s => decide (s.id = sid)

/-- `SELECT id, weekday FROM classes WHERE id = $1` (first matching row). -/
def findClass (db : DB) (cid : ℚ) : Option ClassRow :=
  db.classes.find? fun c => decide (c.id = cid)

/-- `SELECT 1 FROM students WHERE id = $1` as an existence test. -/
def hasStudentRow (db : DB) (sid : ℚ) : Bool :=
  db.students.any fun s => decide (s.id = sid)

/-- `SELECT 1 FROM sessions WHERE id = $1` as an existence test. -/
def hasSessionRow (db : DB) (sid : ℚ) : Bool :=
  db.sessions.any fun s => decide (s.id = sid)

/-- `SELECT COUNT(*) FROM attendances WHERE session_id = $1`. -/
def sessionAttCount (db : DB) (sid : ℚ) : ℕ :=
  (db.attendances.filter fun a => decide (a.session_id = sid)).length

/-! ## Access guards (`ensureClassAccess`, `ensureSessionAccess`) -/

/-- Outcome of a guard middleware: pass the request on, or answer with an
HTTP status code. -/
inductive GuardResult where
  | allow
  | deny (code : ℕ)
deriving DecidableEq

/-- `ensureClassAccess` from `src/db.js`.  The acting subject is `(role,
uid)`; `classIdRaw` is `Number(req.params.classId ?? req.params.id ??
req.body.class_id ?? req.query.class_id)` with `none` standing for `NaN`.
Admins are let through before any validation; otherwise a non-integer id is
a 400, and the subject must be the class's owner or a co-manager link
holder (the `LEFT JOIN class_users` query), else 403. -/
def ensureClassAccess (db : DB) (role : String) (uid : ℚ)
    (classIdRaw : Option ℚ) : GuardResult :=
  if role = "admin" then GuardResult.allow
  else
    match classIdRaw with
    | none => GuardResult.deny 400
    | some q =>
      if q.den ≠ 1 then GuardResult.deny 400
      else if db.classes.any (fun c => decide (c.id = q) &&
          (decide (c.user_id = some uid) ||
            db.class_users.any fun cu =>
              decide (cu.class_id = q) && decide (cu.user_id = uid)))
      then GuardResult.allow
      else GuardResult.deny 403

/-- `ensureSessionAccess` from `src/db.js`: admins pass immediately; a
non-integer session id is a 400; an unknown session a 404; otherwise the
session's class id is resolved and `ensureClassAccess` is applied to it. -/
def ensureSessionAccess (db : DB) (role : String) (uid : ℚ)
    (sessionIdRaw : Option ℚ) : GuardResult :=
  if role = "admin" then GuardResult.allow
  else
    match sessionIdRaw with
    | none => GuardResult.deny 400
    | some q =>
      if q.den ≠ 1 then GuardResult.deny 400
      else
        match findSession db q with
        | none => GuardResult.deny 404
        | some s => ensureClassAccess db role uid (some s.class_id)

/-! ## Idempotent session materialization -/

/-- One date of the set-based
`INSERT INTO sessions (class_id, date) ... ON CONFLICT (class_id, date) DO
NOTHING`.  Modelled from the spec: the `sessions` table schema (not under
`src/`) carries a unique constraint on `(class_id, date)`, a `status`
default of `scheduled`, a null `note` default and a serial `id` (spec §3:
"status defaults to scheduled", "(class id, date) is unique"). -/
def insertSessionStep (cid : ℚ) (db : DB) (d : ℕ) : DB :=
  if db.sessions.any (fun s => decide (s.class_id = cid) && decide (s.date = d))
  then db
  else { db with
    sessions := db.sessions ++ [⟨(db.nextSessionId : ℚ), cid, d, "scheduled", none⟩],
    nextSessionId := db.nextSessionId + 1 }

/-- The whole set-based insert: one `insertSessionStep` per date, existing
rows never touched. -/
def insertSessionsSkip (db : DB) (cid : ℚ) (dates : List ℕ) : DB :=
  dates.foldl (insertSessionStep cid) db

/-- `ensureSessionsForWeekday` from `src/db.js`: materialize the weekday's
dates over the school year starting in `startYear`. -/
def ensureSessionsForWeekday (db : DB) (classId : ℚ) (iso : ℚ)
    (startYear : ℕ) : DB :=
  insertSessionsSkip db classId
    (enumerateDatesByWeekday (utcNoon startYear 8 1) (utcNoon (startYear + 1) 6 14) iso)

/-! ## Session state machine (`PATCH /sessions/:id/status`) -/

/-- The `allowed` status set of the PATCH status handler. -/
def allowedStatuses : List String :=
  ["scheduled", "cancelled", "holiday", "vacation", "extra"]

/-- The `nonPointables` status set (shared by the PATCH status handler and
the attendance handler). -/
def nonPointables : List String := ["cancelled", "holiday", "vacation"]

/-- `String(req.query.force || 'false') === 'true'`: an absent or empty
`force` query parameter is read as `"false"`. -/
def parseForce (forceQ : Option String) : Bool :=
  decide ((match forceQ with
    | none => "false"
    | some s => if s = "" then "false" else s) = "true")

/-- Result of the PATCH status handler: HTTP code, the `existing` count of
a 409 body, the returned session row, and the store afterwards. -/
structure PatchStatusResult where
  code : ℕ
  existing : Option ℕ
  row : Option SessionRow
  db : DB
deriving DecidableEq

/-- The successful tail of the PATCH status handler: `UPDATE sessions SET
status=$1, note=$2 WHERE id=$3` followed by re-reading the row. -/
def patchStatusUpdate (db : DB) (sid : ℚ) (st : String) (note : Option String) :
    PatchStatusResult :=
  let db1 := { db with
    sessions := db.sessions.map fun s =>
      if s.id = sid then { s with status := st, note := note } else s }
  ⟨200, none, findSession db1 sid, db1⟩

/-- The `PATCH /sessions/:id/status` handler from `src/db.js`.  `status`
and `note` come from the body (`none` = absent), `forceQ` is the raw
`force` query parameter.  An unknown status is a 400; a transition to a
non-pointable status with existing attendance marks is a 409 carrying the
exact count unless forced, in which case the marks are deleted before the
update. -/
def patchSessionStatus (db : DB) (sid : ℚ) (status : Option String)
    (note : Option String) (forceQ : Option String) : PatchStatusResult :=
  match status with
  | none => ⟨400, none, none, db⟩
  | some st =>
    if st ∈ allowedStatuses then
      if st ∈ nonPointables then
        if 0 < sessionAttCount db sid ∧ parseForce forceQ = false then
          ⟨409, some (sessionAttCount db sid), none, db⟩
        else if 0 < sessionAttCount db sid ∧ parseForce forceQ = true then
          patchStatusUpdate
            { db with attendances :=
                db.attendances.filter fun a => decide (a.session_id ≠ sid) }
            sid st note
        else patchStatusUpdate db sid st note
      else patchStatusUpdate db sid st note
    else ⟨400, none, none, db⟩

/-! ## Attendance ledger (`POST /attendance`) -/

/-- Result of the attendance upsert handler. -/
structure AttResult where
  code : ℕ
  db : DB
deriving DecidableEq

/-- The `INSERT ... ON CONFLICT (student_id, session_id) DO UPDATE SET
status = EXCLUDED.status, comment = EXCLUDED.comment` upsert. -/
def upsertAttendance (rows : List AttendanceRow) (qs qx : ℚ) (st : String)
    (cm : Option String) : List AttendanceRow :=
  if rows.any (fun a => decide (a.student_id = qs) && decide (a.session_id = qx))
  then rows.map fun a =>
    if a.student_id = qs ∧ a.session_id = qx
    then { a with status := st, comment := cm } else a
  else rows ++ [⟨qs, qx, st, cm⟩]

/-- The referential and tenability tail of the attendance handler: student
foreign key, session foreign key, session status lookup, non-pointability
conflict, then the upsert. -/
def attendanceFkTail (db : DB) (qs qx : ℚ) (sts : String)
    (cmv : Option String) : AttResult :=
  if hasStudentRow db qs = true then
    if hasSessionRow db qx = true then
      match findSession db qx with
      | none => ⟨404, db⟩
      | some srow =>
        if srow.status ∈ nonPointables then ⟨409, db⟩
        else ⟨200, { db with
          attendances := upsertAttendance db.attendances qs qx sts cmv }⟩
    else ⟨400, db⟩
  else ⟨400, db⟩

/-- The `POST /attendance` handler from `src/db.js`.  `studentIdRaw` and
`sessionIdRaw` are the `Number(...)`-coerced body ids (`none` = `NaN`);
falsy ids or a falsy status are a 400; the status must be one of
present/absent/excused; `excused` demands a non-blank comment which is then
trimmed while any other status discards the comment; both foreign keys are
checked; a non-pointable session is a 409; only then is the upsert run. -/
def postAttendance (db : DB) (studentIdRaw sessionIdRaw : Option ℚ)
    (status : Option String) (comment : Option String) : AttResult :=
  match studentIdRaw, sessionIdRaw, status with
  | some qs, some qx, some st =>
    if qs = 0 ∨ qx = 0 ∨ st = "" then ⟨400, db⟩
    else if st ∈ ["present", "absent", "excused"] then
      match (if st = "excused" then
          match comment with
          | none => none
          | some c => if c.trim = "" then none else some (some c.trim)
        else some none : Option (Option String)) with
      | none => ⟨400, db⟩
      | some cm => attendanceFkTail db qs qx st cm
    else ⟨400, db⟩
  | _, _, _ => ⟨400, db⟩

/-! ## Session generation endpoints -/

/-- Result of a handler that only reports a code and mutates the store
(the session listings the source returns afterwards are read-only). -/
structure GenResult where
  code : ℕ
  db : DB
deriving DecidableEq

/-- Weekday resolution of the generate-sessions handler: the body weekday
if it normalizes, else the class's stored weekday passed back through
`normalizeToIsoWeekday`. -/
def resolveGenIso (bodyWeekday : JSVal) (cl : ClassRow) : Option ℚ :=
  match normalizeToIsoWeekday bodyWeekday with
  | some v => some v
  | none =>
    match cl.weekday with
    | some w => normalizeToIsoWeekday (JSVal.num w)
    | none => none

/-- `UPDATE classes SET weekday = $1 WHERE id = $2`. -/
def classWeekdayUpdate (db : DB) (classId iso : ℚ) : DB :=
  { db with classes := db.classes.map fun c =>
      if c.id = classId then { c with weekday := some iso } else c }

/-- The conditional weekday persistence of the generate-sessions handler
(`if (cl.rows[0].weekday !== isoWeekday) UPDATE ...`). -/
def genClassUpdate (db : DB) (q iso : ℚ) (cl : ClassRow) : DB :=
  if cl.weekday ≠ some iso then classWeekdayUpdate db q iso else db

/-- The `POST /classes/:id/generate-sessions` handler from `src/db.js`:
validate the class id, load the class (404 if absent), resolve the weekday
(400 if none), persist it on the class when it changed, then materialize
the active school year's dates idempotently. -/
def generateSessions (db : DB) (classIdRaw : Option ℚ) (bodyWeekday : JSVal)
    (nowY nowM : ℕ) : GenResult :=
  match classIdRaw with
  | none => ⟨400, db⟩
  | some q =>
    if q.den ≠ 1 then ⟨400, db⟩
    else
      match findClass db q with
      | none => ⟨404, db⟩
      | some cl =>
        match resolveGenIso bodyWeekday cl with
        | none => ⟨400, db⟩
        | some iso =>
          ⟨200, insertSessionsSkip (genClassUpdate db q iso cl) q
            (enumerateDatesByWeekday (getActiveSchoolYear nowY nowM).1
              (getActiveSchoolYear nowY nowM).2 iso)⟩

/-- `Number.isInteger(req.body.startYear) ? req.body.startYear :
schoolStartYear()` (negative years are outside the modelled range and fall
back like the source would never exercise). -/
def patchStartYearResolve (bodyStartYear : Option ℚ) (nowY nowM : ℕ) : ℕ :=
  match bodyStartYear with
  | some q => if q.den = 1 ∧ 0 ≤ q.num then q.num.toNat
              else schoolStartYear nowY nowM
  | none => schoolStartYear nowY nowM

/-- The `PATCH /classes/:id/weekday` handler from `src/db.js`: a weekday
that normalizes to a falsy value is a 400; otherwise the class row's
weekday is updated and the school year (the body's `startYear` when it is
an integer, else the ambient active one) is materialized idempotently. -/
def patchClassWeekday (db : DB) (classId : ℚ) (bodyWeekday : JSVal)
    (bodyStartYear : Option ℚ) (nowY nowM : ℕ) : GenResult :=
  match normalizeToIsoWeekday bodyWeekday with
  | none => ⟨400, db⟩
  | some iso =>
    if iso = 0 then ⟨400, db⟩
    else
      ⟨200, insertSessionsSkip (classWeekdayUpdate db classId iso) classId
        (enumerateDatesByWeekday
          (utcNoon (patchStartYearResolve bodyStartYear nowY nowM) 8 1)
          (utcNoon (patchStartYearResolve bodyStartYear nowY nowM + 1) 6 14) iso)⟩

/-! ## Student endpoints (note: mounted without any auth middleware) -/

/-- The `INSERT INTO students ... RETURNING *` of the students handler
(`iso ?? null` is what the source stores for the weekday column). -/
def studentInsert (db : DB) (firstname lastname : Option String)
    (class_id : Option ℚ) (phone : Option String) (iso : Option ℚ) : DB :=
  { db with
    students := db.students ++
      [⟨(db.nextStudentId : ℚ), firstname, lastname, class_id, phone, iso⟩],
    nextStudentId := db.nextStudentId + 1 }

/-- The `POST /api/students` handler from `src/db.js`.  It carries **no**
`authenticateToken`, `authorizeRoles` or `ensureClassAccess` middleware, so
it has no acting-subject parameter at all.  The student row is inserted
first; then, whenever the weekday normalized to a truthy value, sessions
for the student's class are materialized over the ambient school year
(`class_id = none` models a missing body field, whose `Number(...)` is
`NaN` and makes the session insert fail server-side after the student row
was already written). -/
def postStudent (db : DB) (firstname lastname : Option String)
    (class_id : Option ℚ) (phone : Option String) (weekday : JSVal)
    (nowY nowM : ℕ) : GenResult :=
  match normalizeToIsoWeekday weekday with
  | none => ⟨200, studentInsert db firstname lastname class_id phone none⟩
  | some v =>
    if v = 0 then
      ⟨200, studentInsert db firstname lastname class_id phone (some v)⟩
    else
      match class_id with
      | none => ⟨500, studentInsert db firstname lastname class_id phone (some v)⟩
      | some cid =>
        ⟨200, ensureSessionsForWeekday
          (studentInsert db firstname lastname class_id phone (some v))
          cid v (schoolStartYear nowY nowM)⟩

/-- `UPDATE students SET weekday = $1 WHERE id = $2`. -/
def studentWeekdayUpdate (db : DB) (sid : ℚ) (iso : Option ℚ) : DB :=
  { db with students := db.students.map fun s =>
      if s.id = sid then { s with weekday := iso } else s }

/-- The `PATCH /api/students/:id` handler from `src/db.js` (also mounted
without auth middleware): update the student's weekday (404 when the id
matches no row), then materialize sessions for `Number(class_id)` of the
updated row when the weekday was truthy (`Number(null) = 0`, hence
`getD 0`). -/
def patchStudent (db : DB) (sid : ℚ) (weekday : JSVal) (nowY nowM : ℕ) :
    GenResult :=
  match db.students.find? (fun s => decide (s.id = sid)) with
  | none => ⟨404, db⟩
  | some srow =>
    match normalizeToIsoWeekday weekday with
    | none => ⟨200, studentWeekdayUpdate db sid none⟩
    | some v =>
      if v = 0 then ⟨200, studentWeekdayUpdate db sid (some v)⟩
      else ⟨200, ensureSessionsForWeekday
        (studentWeekdayUpdate db sid (some v)) (srow.class_id.getD 0) v
        (schoolStartYear nowY nowM)⟩

/-! ## Lemmas: the while loop enumerates an arithmetic progression -/

theorem mem_enumLoop_aux (e x : ℕ) :
    ∀ m d, e + 1 - d = m →
      (x ∈ enumLoop e d ↔ d ≤ x ∧ x ≤ e ∧ x % 7 = d % 7) := by
  intro m
  induction m using Nat.strong_induction_on with
  | _ m ih =>
    intro d hm
    rw [enumLoop_eq]
    by_cases hd : d ≤ e
    · rw [if_pos hd]
      have hrec := ih (e + 1 - (d + 7)) (by omega) (d + 7) rfl
      simp only [List.mem_cons, hrec]
      omega
    · rw [if_neg hd]
      simp only [List.not_mem_nil, false_iff]
      omega

/-- Membership in the stepped loop: exactly the day numbers in `[d, e]`
congruent to `d` modulo 7. -/
theorem mem_enumLoop (e x d : ℕ) :
    x ∈ enumLoop e d ↔ d ≤ x ∧ x ≤ e ∧ x % 7 = d % 7 :=
  mem_enumLoop_aux e x (e + 1 - d) d rfl

theorem enumLoop_pairwise_aux (e : ℕ) :
    ∀ m d, e + 1 - d = m → List.Pairwise (· < ·) (enumLoop e d) := by
  intro m
  induction m using Nat.strong_induction_on with
  | _ m ih =>
    intro d hm
    rw [enumLoop_eq]
    by_cases hd : d ≤ e
    · rw [if_pos hd]
      refine List.pairwise_cons.mpr ⟨?_, ih (e + 1 - (d + 7)) (by omega) (d + 7) rfl⟩
      intro y hy
      have := (mem_enumLoop e y (d + 7)).mp hy
      omega
    · rw [if_neg hd]
      exact List.Pairwise.nil

/-- The stepped loop is strictly increasing (hence duplicate-free). -/
theorem enumLoop_pairwise (e d : ℕ) :
    List.Pairwise (· < ·) (enumLoop e d) :=
  enumLoop_pairwise_aux e (e + 1 - d) d rfl

/-! ## Lemmas: integer weekdays collapse the rational JS arithmetic -/

theorem floor_natCast_div_seven (n : ℕ) : ⌊(n : ℚ) / 7⌋ = ((n / 7 : ℕ) : ℤ) := by
  rw [Int.floor_eq_iff]
  constructor
  · rw [le_div_iff₀ (by norm_num : (0:ℚ) < 7)]
    push_cast
    exact_mod_cast (by exact_mod_cast Nat.cast_le.mpr (Nat.div_mul_le_self n 7) :
      ((n / 7 * 7 : ℕ) : ℚ) ≤ (n : ℚ))
  · rw [div_lt_iff₀ (by norm_num : (0:ℚ) < 7)]
    have h : n < (n / 7 + 1) * 7 := by omega
    exact_mod_cast (by exact_mod_cast Nat.cast_lt.mpr h :
      (n : ℚ) < (((n / 7 + 1) * 7 : ℕ) : ℚ))

theorem jsMod_natCast (n : ℕ) : jsMod (n : ℚ) 7 = ((n % 7 : ℕ) : ℚ) := by
  unfold jsMod jsTrunc
  rw [if_pos (by positivity : (0:ℚ) ≤ (n : ℚ) / 7)]
  rw [floor_natCast_div_seven]
  have h : n = 7 * (n / 7) + n % 7 := (Nat.div_add_mod n 7).symm
  conv_lhs => rw [show ((n:ℚ)) = ((7 * (n / 7) + n % 7 : ℕ) : ℚ) from by
    exact_mod_cast congrArg (Nat.cast : ℕ → ℚ) h]
  have e1 : (((n / 7 : ℕ) : ℤ) : ℚ) = ((n / 7 : ℕ) : ℚ) := by exact_mod_cast rfl
  have e2 : ((7 * (n / 7) + n % 7 : ℕ) : ℚ) =
      7 * ((n / 7 : ℕ) : ℚ) + ((n % 7 : ℕ) : ℚ) := by
    push_cast
    ring
  rw [e1, e2]
  ring

theorem jsTrunc_natCast (n : ℕ) : jsTrunc ((n : ℕ) : ℚ) = (n : ℤ) := by
  unfold jsTrunc
  rw [if_pos (by positivity : (0:ℚ) ≤ ((n : ℕ) : ℚ))]
  exact_mod_cast Int.floor_natCast n

theorem firstOnOrAfter_natCast (s t : ℕ) :
    firstOnOrAfter s ((t : ℕ) : ℚ) = s + (t + 7 - jsDow s) % 7 := by
  unfold firstOnOrAfter
  have hdow : jsDow s ≤ 6 := by unfold jsDow; omega
  have hin : ((t : ℕ) : ℚ) - (jsDow s : ℚ) + 7 = ((t + 7 - jsDow s : ℕ) : ℚ) := by
    push_cast [Nat.cast_sub (by omega : jsDow s ≤ t + 7)]
    ring
  rw [hin, jsMod_natCast, jsTrunc_natCast]
  omega

/-- On a natural ISO weekday argument, the rational pipeline of
`enumerateDatesByWeekday` reduces to pure day-number arithmetic. -/
theorem enumerateDatesByWeekday_natCast (s e k : ℕ) :
    enumerateDatesByWeekday s e (k : ℚ) =
      enumLoop e (s + (k % 7 + 7 - jsDow s) % 7) := by
  unfold enumerateDatesByWeekday jsDowFromIso
  rw [jsMod_natCast, firstOnOrAfter_natCast]

/-- Membership characterization of the date enumeration on natural ISO
weekday arguments. -/
theorem mem_enumerateDatesByWeekday (s e k x : ℕ) :
    x ∈ enumerateDatesByWeekday s e (k : ℚ) ↔
      s ≤ x ∧ x ≤ e ∧ jsDow x = k % 7 := by
  rw [enumerateDatesByWeekday_natCast, mem_enumLoop]
  unfold jsDow
  omega

/-- C3: for every start date, end date and ISO weekday in `[1,7]`,
`enumerateDatesByWeekday` returns exactly the dates of the closed interval
`[start, end]` whose JavaScript day-of-week equals `iso % 7` (i.e. that
fall on the requested ISO weekday, Sunday being ISO 7 and JS 0), in
strictly increasing order with no duplicates.  Determinism is inherent:
the embedding is a pure function of its three arguments. -/
theorem c3_enumerate_dates_correct (s e k x : ℕ) (h1 : 1 ≤ k) (h7 : k ≤ 7) :
    (x ∈ enumerateDatesByWeekday s e (k : ℚ) ↔ s ≤ x ∧ x ≤ e ∧ jsDow x = k % 7)
    ∧ List.Pairwise (· < ·) (enumerateDatesByWeekday s e (k : ℚ)) := by
  constructor
  · exact mem_enumerateDatesByWeekday s e k x
  · rw [enumerateDatesByWeekday_natCast]
    exact enumLoop_pairwise _ _

theorem c3_enumerate_dates_correct_witness :
    ((1:ℕ) ≤ 1 ∧ (1:ℕ) ≤ 7) ∧
    ((4 ∈ enumerateDatesByWeekday 0 20 ((1:ℕ) : ℚ) ↔
        0 ≤ 4 ∧ 4 ≤ 20 ∧ jsDow 4 = 1 % 7)
      ∧ List.Pairwise (· < ·) (enumerateDatesByWeekday 0 20 ((1:ℕ) : ℚ))) :=
  ⟨⟨by decide, by decide⟩,
    c3_enumerate_dates_correct 0 20 1 4 (by decide) (by decide)⟩

/-! ## Lemmas: idempotent session materialization is additive -/

theorem insertSessionStep_mono (cid : ℚ) (db : DB) (d : ℕ) :
    ∀ s ∈ db.sessions, s ∈ (insertSessionStep cid db d).sessions := by
  intro s hs
  unfold insertSessionStep
  split
  · exact hs
  · exact List.mem_append_left _ hs

theorem insertSessionsSkip_mono (dates : List ℕ) :
    ∀ (db : DB) (cid : ℚ), ∀ s ∈ db.sessions,
      s ∈ (insertSessionsSkip db cid dates).sessions := by
  induction dates with
  | nil => intro db cid s hs; exact hs
  | cons d ds ih =>
    intro db cid s hs
    exact ih (insertSessionStep cid db d) cid s (insertSessionStep_mono cid db d s hs)

theorem insertSessionStep_covers (cid : ℚ) (db : DB) (d : ℕ) :
    ∃ s ∈ (insertSessionStep cid db d).sessions, s.class_id = cid ∧ s.date = d := by
  unfold insertSessionStep
  split
  case isTrue h =>
    obtain ⟨s, hs, hp⟩ := List.any_eq_true.mp h
    simp only [Bool.and_eq_true, decide_eq_true_eq] at hp
    exact ⟨s, hs, hp⟩
  case isFalse h =>
    exact ⟨_, List.mem_append_right _ (List.mem_singleton_self _), rfl, rfl⟩

theorem insertSessionsSkip_covers (dates : List ℕ) :
    ∀ (db : DB) (cid : ℚ), ∀ d ∈ dates,
      ∃ s ∈ (insertSessionsSkip db cid dates).sessions,
        s.class_id = cid ∧ s.date = d := by
  induction dates with
  | nil => intro db cid d hd; exact absurd hd (List.not_mem_nil d)
  | cons d0 ds ih =>
    intro db cid d hd
    rcases List.mem_cons.mp hd with rfl | hmem
    · obtain ⟨s, hs, hcd⟩ := insertSessionStep_covers cid db d
      exact ⟨s, insertSessionsSkip_mono ds (insertSessionStep cid db d) cid s hs, hcd⟩
    · exact ih (insertSessionStep cid db d0) cid d hmem

theorem insertSessionStep_extraneous (cid : ℚ) (db : DB) (d : ℕ) :
    ∀ s ∈ (insertSessionStep cid db d).sessions,
      s ∈ db.sessions ∨
        (s.class_id = cid ∧ s.date = d ∧ s.status = "scheduled" ∧ s.note = none) := by
  intro s hs
  unfold insertSessionStep at hs
  revert hs
  split
  · exact fun hs => Or.inl hs
  · intro hs
    rcases List.mem_append.mp hs with h | h
    · exact Or.inl h
    · rcases List.mem_singleton.mp h with rfl
      exact Or.inr ⟨rfl, rfl, rfl, rfl⟩

theorem insertSessionsSkip_extraneous (dates : List ℕ) :
    ∀ (db : DB) (cid : ℚ), ∀ s ∈ (insertSessionsSkip db cid dates).sessions,
      s ∈ db.sessions ∨
        (s.class_id = cid ∧ s.date ∈ dates ∧ s.status = "scheduled" ∧ s.note = none) := by
  induction dates with
  | nil => intro db cid s hs; exact Or.inl hs
  | cons d0 ds ih =>
    intro db cid s hs
    rcases ih (insertSessionStep cid db d0) cid s hs with h | ⟨hc, hd, hst, hn⟩
    · rcases insertSessionStep_extraneous cid db d0 s h with h' | ⟨hc, hd, hst, hn⟩
      · exact Or.inl h'
      · exact Or.inr ⟨hc, by simp [hd], hst, hn⟩
    · exact Or.inr ⟨hc, List.mem_cons_of_mem _ hd, hst, hn⟩

theorem classWeekdayUpdate_sessions (db : DB) (cid iso : ℚ) :
    (classWeekdayUpdate db cid iso).sessions = db.sessions := rfl

theorem genClassUpdate_sessions (db : DB) (q iso : ℚ) (cl : ClassRow) :
    (genClassUpdate db q iso cl).sessions = db.sessions := by
  unfold genClassUpdate
  split <;> rfl

theorem insertSessionStep_classes (cid : ℚ) (db : DB) (d : ℕ) :
    (insertSessionStep cid db d).classes = db.classes := by
  unfold insertSessionStep
  split <;> rfl

theorem insertSessionsSkip_classes (dates : List ℕ) :
    ∀ (db : DB) (cid : ℚ), (insertSessionsSkip db cid dates).classes = db.classes := by
  induction dates with
  | nil => intro db cid; rfl
  | cons d ds ih =>
    intro db cid
    rw [show insertSessionsSkip db cid (d :: ds) =
      insertSessionsSkip (insertSessionStep cid db d) cid ds from rfl]
    rw [ih, insertSessionStep_classes]

theorem findClass_insertSessionsSkip (dates : List ℕ) (db : DB) (cid q : ℚ) :
    findClass (insertSessionsSkip db cid dates) q = findClass db q := by
  unfold findClass
  rw [insertSessionsSkip_classes]

theorem generateSessions_mono (db : DB) (cidRaw : Option ℚ) (w : JSVal)
    (y m : ℕ) : ∀ s ∈ db.sessions, s ∈ (generateSessions db cidRaw w y m).db.sessions := by
  intro s hs
  unfold generateSessions
  cases cidRaw with
  | none => exact hs
  | some q =>
    dsimp only
    by_cases hden : q.den ≠ 1
    · rw [if_pos hden]; exact hs
    · rw [if_neg hden]
      cases hfc : findClass db q with
      | none => exact hs
      | some cl =>
        dsimp only
        cases hri : resolveGenIso w cl with
        | none => exact hs
        | some iso =>
          dsimp only
          refine insertSessionsSkip_mono _ _ _ s ?_
          rw [genClassUpdate_sessions]
          exact hs

theorem patchClassWeekday_mono (db : DB) (cid : ℚ) (w : JSVal)
    (bs : Option ℚ) (y m : ℕ) :
    ∀ s ∈ db.sessions, s ∈ (patchClassWeekday db cid w bs y m).db.sessions := by
  intro s hs
  unfold patchClassWeekday
  cases normalizeToIsoWeekday w with
  | none => exact hs
  | some iso =>
    dsimp only
    by_cases hz : iso = 0
    · rw [if_pos hz]; exact hs
    · rw [if_neg hz]
      exact insertSessionsSkip_mono _ _ _ s hs

theorem generateSessions_success (db : DB) (q : ℚ) (w : JSVal) (y m : ℕ)
    (cl : ClassRow) (iso : ℚ) (hden : q.den = 1)
    (hfc : findClass db q = some cl) (hri : resolveGenIso w cl = some iso) :
    generateSessions db (some q) w y m =
      ⟨200, insertSessionsSkip (genClassUpdate db q iso cl) q
        (enumerateDatesByWeekday (getActiveSchoolYear y m).1
          (getActiveSchoolYear y m).2 iso)⟩ := by
  unfold generateSessions
  dsimp only
  rw [if_neg (fun h => h hden)]
  rw [hfc]
  dsimp only
  rw [hri]

/-- C6: session generation (the generate-sessions endpoint and the
weekday-rule change) never deletes or modifies a pre-existing session row:
every row present before a generation is present, identical, afterwards;
after generating for `w2` on top of an earlier generation for `w1`, every
row of the first result (in particular every `w1`-derived session) is still
present unchanged, and the final session set is the union of the first
result with freshly scheduled rows at the `w2` dates (which are all
covered). -/
theorem c6_generation_nondestructive
    (db : DB) (q : ℚ) (w1 w2 : JSVal) (y1 m1 y2 m2 : ℕ)
    (cl2 : ClassRow) (iso2 : ℚ) (hden : q.den = 1)
    (hc2 : findClass (generateSessions db (some q) w1 y1 m1).db q = some cl2)
    (hi2 : resolveGenIso w2 cl2 = some iso2) :
    (∀ s ∈ db.sessions, s ∈ (generateSessions db (some q) w1 y1 m1).db.sessions) ∧
    (∀ s ∈ (generateSessions db (some q) w1 y1 m1).db.sessions,
      s ∈ (generateSessions (generateSessions db (some q) w1 y1 m1).db
            (some q) w2 y2 m2).db.sessions) ∧
    (∀ s ∈ (generateSessions (generateSessions db (some q) w1 y1 m1).db
            (some q) w2 y2 m2).db.sessions,
      s ∈ (generateSessions db (some q) w1 y1 m1).db.sessions ∨
        (s.class_id = q ∧
          s.date ∈ enumerateDatesByWeekday (getActiveSchoolYear y2 m2).1
            (getActiveSchoolYear y2 m2).2 iso2 ∧
          s.status = "scheduled" ∧ s.note = none)) ∧
    (∀ d ∈ enumerateDatesByWeekday (getActiveSchoolYear y2 m2).1
        (getActiveSchoolYear y2 m2).2 iso2,
      ∃ s ∈ (generateSessions (generateSessions db (some q) w1 y1 m1).db
              (some q) w2 y2 m2).db.sessions,
        s.class_id = q ∧ s.date = d) ∧
    (∀ (db' : DB) (cid : ℚ) (w : JSVal) (bs : Option ℚ) (yy mm : ℕ),
      ∀ s ∈ db'.sessions, s ∈ (patchClassWeekday db' cid w bs yy mm).db.sessions) := by
  refine ⟨generateSessions_mono db (some q) w1 y1 m1, ?_, ?_, ?_,
    fun db' cid w bs yy mm => patchClassWeekday_mono db' cid w bs yy mm⟩
  · exact generateSessions_mono _ (some q) w2 y2 m2
  · intro s hs
    rw [generateSessions_success _ q w2 y2 m2 cl2 iso2 hden hc2 hi2] at hs
    rcases insertSessionsSkip_extraneous _ _ _ s hs with h | h
    · rw [genClassUpdate_sessions] at h
      exact Or.inl h
    · exact Or.inr h
  · intro d hd
    rw [generateSessions_success _ q w2 y2 m2 cl2 iso2 hden hc2 hi2]
    exact insertSessionsSkip_covers _ _ q d hd

theorem c6_generation_nondestructive_witness :
    ((1:ℚ).den = 1 ∧
      findClass (generateSessions
        (⟨[⟨1, "A", none, some 5, none⟩], [], [], [], [], 1, 1⟩ : DB)
        (some 1) (JSVal.num 1) 2024 10).db 1 =
          some ⟨1, "A", none, some 5, some 1⟩ ∧
      resolveGenIso (JSVal.num 2) ⟨1, "A", none, some 5, some 1⟩ = some 2) ∧
    (∀ s ∈ (⟨[⟨1, "A", none, some 5, none⟩], [], [], [], [], 1, 1⟩ : DB).sessions,
      s ∈ (generateSessions
        (⟨[⟨1, "A", none, some 5, none⟩], [], [], [], [], 1, 1⟩ : DB)
        (some 1) (JSVal.num 1) 2024 10).db.sessions) := by
  have hc2 : findClass (generateSessions
      (⟨[⟨1, "A", none, some 5, none⟩], [], [], [], [], 1, 1⟩ : DB)
      (some 1) (JSVal.num 1) 2024 10).db 1 =
        some ⟨1, "A", none, some 5, some 1⟩ := by
    rw [generateSessions_success
      (⟨[⟨1, "A", none, some 5, none⟩], [], [], [], [], 1, 1⟩ : DB)
      1 (JSVal.num 1) 2024 10 ⟨1, "A", none, some 5, none⟩ 1
      (by decide) (by decide) (by decide)]
    rw [findClass_insertSessionsSkip]
    decide
  exact ⟨⟨by decide, hc2, by decide⟩,
    (c6_generation_nondestructive
      (⟨[⟨1, "A", none, some 5, none⟩], [], [], [], [], 1, 1⟩ : DB)
      1 (JSVal.num 1) (JSVal.num 2) 2024 10 2024 10
      ⟨1, "A", none, some 5, some 1⟩ 2 (by decide) hc2 (by decide)).1⟩

/-! ## Lemmas: the session status transition -/

theorem patchStatusUpdate_code (db : DB) (sid : ℚ) (st : String)
    (note : Option String) : (patchStatusUpdate db sid st note).code = 200 := rfl

theorem patchStatusUpdate_attendances (db : DB) (sid : ℚ) (st : String)
    (note : Option String) :
    (patchStatusUpdate db sid st note).db.attendances = db.attendances := rfl

theorem patchStatusUpdate_target (db : DB) (sid : ℚ) (st : String)
    (note : Option String) :
    ∀ s ∈ db.sessions, s.id = sid →
      ({ s with status := st, note := note } : SessionRow) ∈
        (patchStatusUpdate db sid st note).db.sessions := by
  intro s hs hid
  have hsess : (patchStatusUpdate db sid st note).db.sessions =
      db.sessions.map (fun s0 =>
        if s0.id = sid then { s0 with status := st, note := note } else s0) := rfl
  rw [hsess]
  refine List.mem_map.mpr ⟨s, hs, ?_⟩
  dsimp only
  rw [if_pos hid]

theorem patchStatusUpdate_frame (db : DB) (sid : ℚ) (st : String)
    (note : Option String) :
    ∀ s ∈ db.sessions, s.id ≠ sid →
      s ∈ (patchStatusUpdate db sid st note).db.sessions := by
  intro s hs hid
  have hsess : (patchStatusUpdate db sid st note).db.sessions =
      db.sessions.map (fun s0 =>
        if s0.id = sid then { s0 with status := st, note := note } else s0) := rfl
  rw [hsess]
  refine List.mem_map.mpr ⟨s, hs, ?_⟩
  dsimp only
  rw [if_neg hid]

theorem nonPointables_sub_allowed (st : String) (hst : st ∈ nonPointables) :
    st ∈ allowedStatuses := by
  simp only [nonPointables, List.mem_cons, List.not_mem_nil, or_false] at hst
  rcases hst with rfl | rfl | rfl <;> simp [allowedStatuses]

theorem purge_then_count_zero (l : List AttendanceRow) (sid : ℚ) :
    ((l.filter fun a => decide (a.session_id ≠ sid)).filter
      fun a => decide (a.session_id = sid)) = [] := by
  rw [List.filter_eq_nil_iff]
  intro a ha
  have h := List.of_mem_filter ha
  simp only [decide_eq_true_eq] at h ⊢
  exact h

/-- C1: a `PATCH /sessions/:id/status` transition to cancelled, holiday or
vacation while attendance marks exist: without the force flag it answers
409 reporting the exact count of existing attendance rows and leaves the
store untouched; with the force flag it answers 200, deletes every
attendance mark of that session (leaving zero) while preserving the marks
of other sessions, and updates the matching session row's status and note
in place. -/
theorem c1_nonpointable_transition_conflict_or_cascade (db : DB) (sid : ℚ)
    (st : String) (note : Option String) (forceQ : Option String)
    (hst : st ∈ nonPointables) (hn : 0 < sessionAttCount db sid) :
    (parseForce forceQ = false →
      patchSessionStatus db sid (some st) note forceQ =
        ⟨409, some (sessionAttCount db sid), none, db⟩) ∧
    (parseForce forceQ = true →
      (patchSessionStatus db sid (some st) note forceQ).code = 200 ∧
      sessionAttCount (patchSessionStatus db sid (some st) note forceQ).db sid = 0 ∧
      (∀ a ∈ db.attendances, a.session_id ≠ sid →
        a ∈ (patchSessionStatus db sid (some st) note forceQ).db.attendances) ∧
      (∀ a ∈ (patchSessionStatus db sid (some st) note forceQ).db.attendances,
        a.session_id ≠ sid ∧ a ∈ db.attendances) ∧
      (∀ s ∈ db.sessions, s.id = sid →
        ({ s with status := st, note := note } : SessionRow) ∈
          (patchSessionStatus db sid (some st) note forceQ).db.sessions) ∧
      (∀ s ∈ db.sessions, s.id ≠ sid →
        s ∈ (patchSessionStatus db sid (some st) note forceQ).db.sessions)) := by
  have hallowed := nonPointables_sub_allowed st hst
  constructor
  · intro hforce
    unfold patchSessionStatus
    dsimp only
    rw [if_pos hallowed, if_pos hst, if_pos ⟨hn, hforce⟩]
  · intro hforce
    have hrw : patchSessionStatus db sid (some st) note forceQ =
        patchStatusUpdate
          { db with attendances :=
              db.attendances.filter fun a => decide (a.session_id ≠ sid) }
          sid st note := by
      unfold patchSessionStatus
      dsimp only
      rw [if_pos hallowed, if_pos hst,
        if_neg (fun h => by rw [hforce] at h; exact absurd h.2 (by simp)),
        if_pos ⟨hn, hforce⟩]
    rw [hrw]
    refine ⟨rfl, ?_, ?_, ?_, ?_, ?_⟩
    · show sessionAttCount _ sid = 0
      unfold sessionAttCount
      rw [patchStatusUpdate_attendances]
      show (List.filter _ (List.filter _ db.attendances)).length = 0
      rw [purge_then_count_zero]
      rfl
    · intro a ha hne
      rw [patchStatusUpdate_attendances]
      exact List.mem_filter.mpr ⟨ha, by simpa using hne⟩
    · intro a ha
      rw [patchStatusUpdate_attendances] at ha
      have h := List.mem_filter.mp ha
      exact ⟨by simpa using h.2, h.1⟩
    · intro s hs hid
      exact patchStatusUpdate_target _ sid st note s hs hid
    · intro s hs hid
      exact patchStatusUpdate_frame _ sid st note s hs hid

theorem c1_nonpointable_transition_conflict_or_cascade_witness :
    ("cancelled" ∈ nonPointables ∧
      0 < sessionAttCount
        (⟨[], [], [], [⟨1, 1, 10, "scheduled", none⟩],
          [⟨7, 1, "present", none⟩, ⟨8, 1, "absent", none⟩], 2, 1⟩ : DB) 1) ∧
    (parseForce none = false →
      patchSessionStatus
        (⟨[], [], [], [⟨1, 1, 10, "scheduled", none⟩],
          [⟨7, 1, "present", none⟩, ⟨8, 1, "absent", none⟩], 2, 1⟩ : DB)
        1 (some "cancelled") none none =
        ⟨409, some (sessionAttCount
          (⟨[], [], [], [⟨1, 1, 10, "scheduled", none⟩],
            [⟨7, 1, "present", none⟩, ⟨8, 1, "absent", none⟩], 2, 1⟩ : DB) 1),
          none,
          (⟨[], [], [], [⟨1, 1, 10, "scheduled", none⟩],
            [⟨7, 1, "present", none⟩, ⟨8, 1, "absent", none⟩], 2, 1⟩ : DB)⟩) :=
  ⟨⟨by decide, by decide⟩,
    (c1_nonpointable_transition_conflict_or_cascade
      (⟨[], [], [], [⟨1, 1, 10, "scheduled", none⟩],
        [⟨7, 1, "present", none⟩, ⟨8, 1, "absent", none⟩], 2, 1⟩ : DB)
      1 "cancelled" none none (by decide) (by decide)).1⟩

/-- C10: whenever a `PATCH /sessions/:id/status` request succeeds (answers
200), every session row carrying the targeted id ends up with exactly the
request's status and note — the note is overwritten with `none` when the
body omitted it — while its id, class id and date are unchanged. -/
theorem c10_patch_status_overwrites_note (db : DB) (sid : ℚ) (st : String)
    (note : Option String) (forceQ : Option String)
    (hcode : (patchSessionStatus db sid (some st) note forceQ).code = 200) :
    ∀ s ∈ db.sessions, s.id = sid →
      ∃ s' ∈ (patchSessionStatus db sid (some st) note forceQ).db.sessions,
        s'.id = s.id ∧ s'.class_id = s.class_id ∧ s'.date = s.date ∧
        s'.status = st ∧ s'.note = note := by
  intro s hs hid
  by_cases hallowed : st ∈ allowedStatuses
  · by_cases hnp : st ∈ nonPointables
    · by_cases h1 : 0 < sessionAttCount db sid ∧ parseForce forceQ = false
      · exfalso
        unfold patchSessionStatus at hcode
        dsimp only at hcode
        rw [if_pos hallowed, if_pos hnp, if_pos h1] at hcode
        simp at hcode
      · by_cases h2 : 0 < sessionAttCount db sid ∧ parseForce forceQ = true
        · have hrw : patchSessionStatus db sid (some st) note forceQ =
              patchStatusUpdate
                { db with attendances :=
                    db.attendances.filter fun a => decide (a.session_id ≠ sid) }
                sid st note := by
            unfold patchSessionStatus
            dsimp only
            rw [if_pos hallowed, if_pos hnp, if_neg h1, if_pos h2]
          rw [hrw]
          exact ⟨{ s with status := st, note := note },
            patchStatusUpdate_target _ sid st note s hs hid, rfl, rfl, rfl, rfl, rfl⟩
        · have hrw : patchSessionStatus db sid (some st) note forceQ =
              patchStatusUpdate db sid st note := by
            unfold patchSessionStatus
            dsimp only
            rw [if_pos hallowed, if_pos hnp, if_neg h1, if_neg h2]
          rw [hrw]
          exact ⟨{ s with status := st, note := note },
            patchStatusUpdate_target db sid st note s hs hid, rfl, rfl, rfl, rfl, rfl⟩
    · have hrw : patchSessionStatus db sid (some st) note forceQ =
          patchStatusUpdate db sid st note := by
        unfold patchSessionStatus
        dsimp only
        rw [if_pos hallowed, if_neg hnp]
      rw [hrw]
      exact ⟨{ s with status := st, note := note },
        patchStatusUpdate_target db sid st note s hs hid, rfl, rfl, rfl, rfl, rfl⟩
  · exfalso
    unfold patchSessionStatus at hcode
    dsimp only at hcode
    rw [if_neg hallowed] at hcode
    simp at hcode

theorem c10_patch_status_overwrites_note_witness :
    ((patchSessionStatus
        (⟨[], [], [], [⟨1, 1, 10, "scheduled", some "old"⟩], [], 2, 1⟩ : DB)
        1 (some "cancelled") none none).code = 200) ∧
    (∀ s ∈ (⟨[], [], [], [⟨1, 1, 10, "scheduled", some "old"⟩], [], 2, 1⟩ : DB).sessions,
      s.id = 1 →
        ∃ s' ∈ (patchSessionStatus
            (⟨[], [], [], [⟨1, 1, 10, "scheduled", some "old"⟩], [], 2, 1⟩ : DB)
            1 (some "cancelled") none none).db.sessions,
          s'.id = s.id ∧ s'.class_id = s.class_id ∧ s'.date = s.date ∧
          s'.status = "cancelled" ∧ s'.note = none) :=
  ⟨by decide,
    c10_patch_status_overwrites_note
      (⟨[], [], [], [⟨1, 1, 10, "scheduled", some "old"⟩], [], 2, 1⟩ : DB)
      1 "cancelled" none none (by decide)⟩

/-! ## Lemmas: the attendance ledger -/

theorem hasSessionRow_of_find (db : DB) (qx : ℚ) (srow : SessionRow)
    (h : findSession db qx = some srow) : hasSessionRow db qx = true := by
  unfold hasSessionRow
  unfold findSession at h
  rw [List.any_eq_true]
  have h1 := List.mem_of_find?_eq_some h
  have h2 := List.find?_some h
  exact ⟨srow, h1, h2⟩

theorem upsertAttendance_mem (rows : List AttendanceRow) (qs qx : ℚ)
    (sts : String) (cmv : Option String) :
    ∃ a ∈ upsertAttendance rows qs qx sts cmv,
      a.student_id = qs ∧ a.session_id = qx ∧ a.status = sts ∧ a.comment = cmv := by
  unfold upsertAttendance
  split
  case isTrue h =>
    obtain ⟨a, ha, hp⟩ := List.any_eq_true.mp h
    simp only [Bool.and_eq_true, decide_eq_true_eq] at hp
    refine ⟨{ a with status := sts, comment := cmv }, ?_, hp.1, hp.2, rfl, rfl⟩
    refine List.mem_map.mpr ⟨a, ha, ?_⟩
    rw [if_pos ⟨hp.1, hp.2⟩]
  case isFalse h =>
    exact ⟨⟨qs, qx, sts, cmv⟩, List.mem_append_right _ (List.mem_singleton_self _),
      rfl, rfl, rfl, rfl⟩

theorem attendanceFkTail_shape (db : DB) (qs qx : ℚ) (sts : String)
    (cmv : Option String) :
    ((attendanceFkTail db qs qx sts cmv).db = db ∧
      (attendanceFkTail db qs qx sts cmv).code ≠ 200) ∨
    (∃ srow, findSession db qx = some srow ∧ srow.status ∉ nonPointables ∧
      hasStudentRow db qs = true ∧ hasSessionRow db qx = true ∧
      attendanceFkTail db qs qx sts cmv =
        ⟨200, { db with attendances := upsertAttendance db.attendances qs qx sts cmv }⟩) := by
  by_cases hstu : hasStudentRow db qs = true
  · by_cases hses : hasSessionRow db qx = true
    · cases hfind : findSession db qx with
      | none =>
        have heq : attendanceFkTail db qs qx sts cmv = ⟨404, db⟩ := by
          unfold attendanceFkTail
          rw [if_pos hstu, if_pos hses, hfind]
        left; rw [heq]; exact ⟨rfl, by simp⟩
      | some srow =>
        by_cases hnp : srow.status ∈ nonPointables
        · have heq : attendanceFkTail db qs qx sts cmv = ⟨409, db⟩ := by
            unfold attendanceFkTail
            rw [if_pos hstu, if_pos hses, hfind]
            dsimp only
            rw [if_pos hnp]
          left; rw [heq]; exact ⟨rfl, by simp⟩
        · right
          refine ⟨srow, rfl, hnp, hstu, hses, ?_⟩
          unfold attendanceFkTail
          rw [if_pos hstu, if_pos hses, hfind]
          dsimp only
          rw [if_neg hnp]
    · have heq : attendanceFkTail db qs qx sts cmv = ⟨400, db⟩ := by
        unfold attendanceFkTail
        rw [if_pos hstu, if_neg hses]
      left; rw [heq]; exact ⟨rfl, by simp⟩
  · have heq : attendanceFkTail db qs qx sts cmv = ⟨400, db⟩ := by
      unfold attendanceFkTail
      rw [if_neg hstu]
    left; rw [heq]; exact ⟨rfl, by simp⟩

theorem postAttendance_shape (db : DB) (sr xr : Option ℚ) (st cm : Option String) :
    ((postAttendance db sr xr st cm).db = db ∧
      (postAttendance db sr xr st cm).code ≠ 200) ∨
    (∃ qs qx sts cmv srow, sr = some qs ∧ xr = some qx ∧ st = some sts ∧
      (sts = "excused" → ∃ c, cm = some c ∧ c.trim ≠ "" ∧ cmv = some c.trim) ∧
      (sts ≠ "excused" → cmv = none) ∧
      findSession db qx = some srow ∧ srow.status ∉ nonPointables ∧
      hasStudentRow db qs = true ∧ hasSessionRow db qx = true ∧
      postAttendance db sr xr st cm =
        ⟨200, { db with attendances := upsertAttendance db.attendances qs qx sts cmv }⟩) := by
  cases sr with
  | none => left; exact ⟨rfl, by simp [postAttendance]⟩
  | some qs =>
    cases xr with
    | none => left; exact ⟨rfl, by simp [postAttendance]⟩
    | some qx =>
      cases st with
      | none => left; exact ⟨rfl, by simp [postAttendance]⟩
      | some sts =>
        by_cases h0 : qs = 0 ∨ qx = 0 ∨ sts = ""
        · have heq : postAttendance db (some qs) (some qx) (some sts) cm = ⟨400, db⟩ := by
            unfold postAttendance
            dsimp only
            rw [if_pos h0]
          left; rw [heq]; exact ⟨rfl, by simp⟩
        · by_cases hin : sts ∈ ["present", "absent", "excused"]
          · by_cases hex : sts = "excused"
            · cases cm with
              | none =>
                have heq : postAttendance db (some qs) (some qx) (some sts) none =
                    ⟨400, db⟩ := by
                  unfold postAttendance
                  dsimp only
                  rw [if_neg h0, if_pos hin, if_pos hex]
                left; rw [heq]; exact ⟨rfl, by simp⟩
              | some c =>
                by_cases hct : c.trim = ""
                · have heq : postAttendance db (some qs) (some qx) (some sts) (some c) =
                      ⟨400, db⟩ := by
                    unfold postAttendance
                    dsimp only
                    rw [if_neg h0, if_pos hin, if_pos hex, if_pos hct]
                  left; rw [heq]; exact ⟨rfl, by simp⟩
                · have heq : postAttendance db (some qs) (some qx) (some sts) (some c) =
                      attendanceFkTail db qs qx sts (some c.trim) := by
                    unfold postAttendance
                    dsimp only
                    rw [if_neg h0, if_pos hin, if_pos hex, if_neg hct]
                  rcases attendanceFkTail_shape db qs qx sts (some c.trim) with
                    ⟨hd, hc⟩ | ⟨srow, hf, hnp, hstu, hses, htail⟩
                  · left; rw [heq]; exact ⟨hd, hc⟩
                  · right
                    exact ⟨qs, qx, sts, some c.trim, srow, rfl, rfl, rfl,
                      fun _ => ⟨c, rfl, hct, rfl⟩, fun hne => absurd hex hne,
                      hf, hnp, hstu, hses, heq.trans htail⟩
            · have heq : postAttendance db (some qs) (some qx) (some sts) cm =
                  attendanceFkTail db qs qx sts none := by
                unfold postAttendance
                dsimp only
                rw [if_neg h0, if_pos hin, if_neg hex]
              rcases attendanceFkTail_shape db qs qx sts none with
                ⟨hd, hc⟩ | ⟨srow, hf, hnp, hstu, hses, htail⟩
              · left; rw [heq]; exact ⟨hd, hc⟩
              · right
                exact ⟨qs, qx, sts, none, srow, rfl, rfl, rfl,
                  fun hexc => absurd hexc hex, fun _ => rfl,
                  hf, hnp, hstu, hses, heq.trans htail⟩
          · have heq : postAttendance db (some qs) (some qx) (some sts) cm =
                ⟨400, db⟩ := by
              unfold postAttendance
              dsimp only
              rw [if_neg h0, if_neg hin]
            left; rw [heq]; exact ⟨rfl, by simp⟩

/-- C2 (amended): when the target session of a `POST /attendance` upsert
is non-pointable (cancelled, holiday or vacation), the store is never
modified and the request never succeeds; when the rest of the request is
valid (truthy integer-resolving ids, known status, excused-comment rule
satisfied, existing student) the answer is exactly a 409 conflict; the same
otherwise-valid request against a pointable (scheduled or extra) session
succeeds with 200.  (As stated the original claim is false: an invalid
status against a non-pointable session yields a 400 validation error, not
a conflict — see the counterexample.) -/
theorem c2_nonpointable_attendance_guard (db : DB) (qx : ℚ) (srow : SessionRow)
    (hfind : findSession db qx = some srow) :
    (srow.status ∈ nonPointables →
      ∀ (sr : Option ℚ) (st cm : Option String),
        (postAttendance db sr (some qx) st cm).db = db ∧
        (postAttendance db sr (some qx) st cm).code ≠ 200) ∧
    (srow.status ∈ nonPointables →
      ∀ (qs : ℚ) (sts : String) (cm : Option String),
        qs ≠ 0 → qx ≠ 0 → sts ∈ ["present", "absent", "excused"] → sts ≠ "" →
        (sts = "excused" → ∃ c, cm = some c ∧ c.trim ≠ "") →
        hasStudentRow db qs = true →
        postAttendance db (some qs) (some qx) (some sts) cm = ⟨409, db⟩) ∧
    (srow.status ∉ nonPointables →
      ∀ (qs : ℚ) (sts : String) (cm : Option String),
        qs ≠ 0 → qx ≠ 0 → sts ∈ ["present", "absent", "excused"] → sts ≠ "" →
        (sts = "excused" → ∃ c, cm = some c ∧ c.trim ≠ "") →
        hasStudentRow db qs = true →
        (postAttendance db (some qs) (some qx) (some sts) cm).code = 200) := by
  have hses := hasSessionRow_of_find db qx srow hfind
  refine ⟨?_, ?_, ?_⟩
  · intro hnp sr st cm
    rcases postAttendance_shape db sr (some qx) st cm with ⟨h1, h2⟩ |
      ⟨qs', qx', sts', cmv, srow', _, hs2, _, _, _, hf', hnp', _, _, _⟩
    · exact ⟨h1, h2⟩
    · exfalso
      have hqx : qx' = qx := by injection hs2.symm
      rw [hqx, hfind] at hf'
      have hsw : srow = srow' := by injection hf'
      rw [← hsw] at hnp'
      exact hnp' hnp
  · intro hnp qs sts cm hqs hqxne hin hne hexc hstu
    have h0 : ¬(qs = 0 ∨ qx = 0 ∨ sts = "") := by
      rintro (h | h | h)
      exacts [hqs h, hqxne h, hne h]
    by_cases hex : sts = "excused"
    · obtain ⟨c, hcm, hct⟩ := hexc hex
      rw [hcm]
      unfold postAttendance
      dsimp only
      rw [if_neg h0, if_pos hin, if_pos hex, if_neg hct]
      dsimp only
      unfold attendanceFkTail
      rw [if_pos hstu, if_pos hses, hfind]
      dsimp only
      rw [if_pos hnp]
    · unfold postAttendance
      dsimp only
      rw [if_neg h0, if_pos hin, if_neg hex]
      dsimp only
      unfold attendanceFkTail
      rw [if_pos hstu, if_pos hses, hfind]
      dsimp only
      rw [if_pos hnp]
  · intro hnp qs sts cm hqs hqxne hin hne hexc hstu
    have h0 : ¬(qs = 0 ∨ qx = 0 ∨ sts = "") := by
      rintro (h | h | h)
      exacts [hqs h, hqxne h, hne h]
    by_cases hex : sts = "excused"
    · obtain ⟨c, hcm, hct⟩ := hexc hex
      rw [hcm]
      unfold postAttendance
      dsimp only
      rw [if_neg h0, if_pos hin, if_pos hex, if_neg hct]
      dsimp only
      unfold attendanceFkTail
      rw [if_pos hstu, if_pos hses, hfind]
      dsimp only
      rw [if_neg hnp]
    · unfold postAttendance
      dsimp only
      rw [if_neg h0, if_pos hin, if_neg hex]
      dsimp only
      unfold attendanceFkTail
      rw [if_pos hstu, if_pos hses, hfind]
      dsimp only
      rw [if_neg hnp]

/-- C2 counterexample: session 1 of the store is `cancelled` and student 2
exists, yet an upsert attempt with the invalid status `"bogus"` against
that session fails with a 400 validation error — not with the 409 conflict
the claim promises for every upsert against a non-pointable session
"regardless of student/status validity". -/
theorem c2_counterexample :
    findSession (⟨[], [], [⟨2, none, none, some 1, none, none⟩],
        [⟨1, 1, 10, "cancelled", none⟩], [], 2, 3⟩ : DB) 1 =
      some ⟨1, 1, 10, "cancelled", none⟩ ∧
    postAttendance (⟨[], [], [⟨2, none, none, some 1, none, none⟩],
        [⟨1, 1, 10, "cancelled", none⟩], [], 2, 3⟩ : DB)
      (some 2) (some 1) (some "bogus") none =
      ⟨400, ⟨[], [], [⟨2, none, none, some 1, none, none⟩],
        [⟨1, 1, 10, "cancelled", none⟩], [], 2, 3⟩⟩ := by
  exact ⟨by decide, by decide⟩

theorem c2_nonpointable_attendance_guard_witness :
    (findSession (⟨[], [], [⟨2, none, none, some 1, none, none⟩],
        [⟨1, 1, 10, "cancelled", none⟩], [], 2, 3⟩ : DB) 1 =
      some ⟨1, 1, 10, "cancelled", none⟩ ∧
      ("cancelled" : String) ∈ nonPointables ∧ (2:ℚ) ≠ 0 ∧ (1:ℚ) ≠ 0 ∧
      ("present" : String) ∈ ["present", "absent", "excused"] ∧
      hasStudentRow (⟨[], [], [⟨2, none, none, some 1, none, none⟩],
        [⟨1, 1, 10, "cancelled", none⟩], [], 2, 3⟩ : DB) 2 = true) ∧
    postAttendance (⟨[], [], [⟨2, none, none, some 1, none, none⟩],
        [⟨1, 1, 10, "cancelled", none⟩], [], 2, 3⟩ : DB)
      (some 2) (some 1) (some "present") none =
      ⟨409, ⟨[], [], [⟨2, none, none, some 1, none, none⟩],
        [⟨1, 1, 10, "cancelled", none⟩], [], 2, 3⟩⟩ :=
  ⟨⟨by decide, by decide, by decide, by decide, by decide, by decide⟩,
    (c2_nonpointable_attendance_guard
      (⟨[], [], [⟨2, none, none, some 1, none, none⟩],
        [⟨1, 1, 10, "cancelled", none⟩], [], 2, 3⟩ : DB)
      1 ⟨1, 1, 10, "cancelled", none⟩ (by decide)).2.1 (by decide)
      2 "present" none (by decide) (by decide) (by decide) (by decide)
      (fun h => absurd h (by decide)) (by decide)⟩

/-- C5: the excused-comment rule of the attendance upsert.  A request with
status `excused` and a null, empty or whitespace-only comment always fails
with a 400 validation error and leaves the store untouched; a successful
excused upsert stores the trimmed comment; a successful present or absent
upsert stores a null comment no matter what comment the caller supplied. -/
theorem c5_excused_comment_rule (db : DB) (sr xr : Option ℚ) (cm : Option String) :
    ((cm = none ∨ ∃ c, cm = some c ∧ c.trim = "") →
      postAttendance db sr xr (some "excused") cm = ⟨400, db⟩) ∧
    ((postAttendance db sr xr (some "excused") cm).code = 200 →
      ∃ qs qx c, sr = some qs ∧ xr = some qx ∧ cm = some c ∧ c.trim ≠ "" ∧
        ∃ a ∈ (postAttendance db sr xr (some "excused") cm).db.attendances,
          a.student_id = qs ∧ a.session_id = qx ∧ a.status = "excused" ∧
          a.comment = some c.trim) ∧
    (∀ sts : String, sts = "present" ∨ sts = "absent" →
      (postAttendance db sr xr (some sts) cm).code = 200 →
      ∃ qs qx, sr = some qs ∧ xr = some qx ∧
        ∃ a ∈ (postAttendance db sr xr (some sts) cm).db.attendances,
          a.student_id = qs ∧ a.session_id = qx ∧ a.status = sts ∧
          a.comment = none) := by
  refine ⟨?_, ?_, ?_⟩
  · intro hblank
    cases sr with
    | none => rfl
    | some qs =>
      cases xr with
      | none => rfl
      | some qx =>
        by_cases h0 : qs = 0 ∨ qx = 0 ∨ ("excused" : String) = ""
        · unfold postAttendance
          dsimp only
          rw [if_pos h0]
        · unfold postAttendance
          dsimp only
          rw [if_neg h0, if_pos (by decide : ("excused" : String) ∈
            ["present", "absent", "excused"]), if_pos rfl]
          rcases hblank with rfl | ⟨c, rfl, hct⟩
          · rfl
          · dsimp only
            rw [if_pos hct]
  · intro hcode
    rcases postAttendance_shape db sr xr (some "excused") cm with ⟨_, hc⟩ |
      ⟨qs, qx, sts, cmv, srow, hs1, hs2, hs3, hexc, _, _, _, _, _, heq⟩
    · exact absurd hcode hc
    · have hsts : sts = "excused" := by injection hs3.symm
      obtain ⟨c, hcm, hct, hcmv⟩ := hexc hsts
      refine ⟨qs, qx, c, hs1, hs2, hcm, hct, ?_⟩
      rw [heq]
      obtain ⟨a, ha, h1, h2, h3, h4⟩ :=
        upsertAttendance_mem db.attendances qs qx sts cmv
      exact ⟨a, ha, h1, h2, h3.trans hsts, by rw [h4, hcmv]⟩
  · intro sts hsts hcode
    rcases postAttendance_shape db sr xr (some sts) cm with ⟨_, hc⟩ |
      ⟨qs, qx, sts', cmv, srow, hs1, hs2, hs3, _, hnexc, _, _, _, _, heq⟩
    · exact absurd hcode hc
    · have hsts' : sts' = sts := by injection hs3.symm
      have hne : sts' ≠ "excused" := by
        rw [hsts']
        rcases hsts with rfl | rfl <;> decide
      have hcmv := hnexc hne
      refine ⟨qs, qx, hs1, hs2, ?_⟩
      rw [heq]
      obtain ⟨a, ha, h1, h2, h3, h4⟩ :=
        upsertAttendance_mem db.attendances qs qx sts' cmv
      exact ⟨a, ha, h1, h2, h3.trans hsts', by rw [h4, hcmv]⟩

theorem c5_excused_comment_rule_witness :
    ((none : Option String) = none ∨ ∃ c, (none : Option String) = some c ∧
      c.trim = "") ∧
    postAttendance (⟨[], [], [], [], [], 1, 1⟩ : DB)
      (some 2) (some 1) (some "excused") none =
      ⟨400, ⟨[], [], [], [], [], 1, 1⟩⟩ :=
  ⟨Or.inl rfl,
    (c5_excused_comment_rule (⟨[], [], [], [], [], 1, 1⟩ : DB)
      (some 2) (some 1) none).1 (Or.inl rfl)⟩

/-! ## Lemmas: weekday normalization -/

theorem normalize_some_range (v : JSVal) (r : ℚ)
    (h : normalizeToIsoWeekday v = some r) : 1 ≤ r ∧ r ≤ 7 := by
  cases v with
  | str s =>
    unfold normalizeToIsoWeekday at h
    dsimp only at h
    unfold ISO_FROM_FR at h
    repeat' split at h
    all_goals first
      | (injection h with h; subst h; norm_num)
      | exact Option.noConfusion h
  | num q =>
    unfold normalizeToIsoWeekday at h
    dsimp only at h
    split at h
    case isTrue h1 =>
      injection h with h
      subst h
      exact h1
    case isFalse h1 =>
      split at h
      case isTrue h2 =>
        injection h with h
        subst h
        constructor
        · linarith [h2.1]
        · linarith [h2.2]
      case isFalse h2 => exact Option.noConfusion h
  | nan => exact Option.noConfusion h
  | other => exact Option.noConfusion h

theorem normalize_num_natCast (k : ℕ) (h1 : 1 ≤ k) (h7 : k ≤ 7) :
    normalizeToIsoWeekday (JSVal.num (k : ℚ)) = some (k : ℚ) := by
  unfold normalizeToIsoWeekday
  dsimp only
  rw [if_pos ⟨by exact_mod_cast h1, by exact_mod_cast h7⟩]

/-- C7 (amended): `normalizeToIsoWeekday` maps an ISO integer 1–7 to
itself and French weekday names (case-insensitively) to their ISO numbers,
and every result is either the null sentinel or a number in `[1,7]`, so a
class weekday written by the weekday endpoint always lies in `[1,7]`.
However the JS-style branch maps 0 to 1 (ISO Monday), **not** to Sunday
(ISO 7), and non-integer numbers such as 3.5 are *not* sent to the null
sentinel (see the counterexample); the result need not be an integer. -/
theorem c7_normalize_weekday_characterization :
    (∀ q : ℚ, normalizeToIsoWeekday (JSVal.num q) = none ∨
      ∃ r, normalizeToIsoWeekday (JSVal.num q) = some r ∧ 1 ≤ r ∧ r ≤ 7) ∧
    (∀ k : ℕ, 1 ≤ k → k ≤ 7 →
      normalizeToIsoWeekday (JSVal.num (k : ℚ)) = some (k : ℚ)) ∧
    (normalizeToIsoWeekday (JSVal.num 0) = some 1) ∧
    (normalizeToIsoWeekday (JSVal.str "lundi") = some 1 ∧
      normalizeToIsoWeekday (JSVal.str "mardi") = some 2 ∧
      normalizeToIsoWeekday (JSVal.str "mercredi") = some 3 ∧
      normalizeToIsoWeekday (JSVal.str "jeudi") = some 4 ∧
      normalizeToIsoWeekday (JSVal.str "vendredi") = some 5 ∧
      normalizeToIsoWeekday (JSVal.str "samedi") = some 6 ∧
      normalizeToIsoWeekday (JSVal.str "DIMANCHE") = some 7) ∧
    (normalizeToIsoWeekday JSVal.nan = none ∧
      normalizeToIsoWeekday JSVal.other = none) ∧
    (∀ (db : DB) (cid : ℚ) (wd : JSVal) (bs : Option ℚ) (y m : ℕ),
      (patchClassWeekday db cid wd bs y m).code = 200 →
      ∀ c ∈ (patchClassWeekday db cid wd bs y m).db.classes, c.id = cid →
        ∃ r, c.weekday = some r ∧ 1 ≤ r ∧ r ≤ 7) := by
  refine ⟨?_, normalize_num_natCast, ?_, ⟨by decide, by decide, by decide,
    by decide, by decide, by decide, by decide⟩, ⟨rfl, rfl⟩, ?_⟩
  · intro q
    cases hv : normalizeToIsoWeekday (JSVal.num q) with
    | none => exact Or.inl rfl
    | some r => exact Or.inr ⟨r, rfl, normalize_some_range (JSVal.num q) r hv⟩
  · unfold normalizeToIsoWeekday
    dsimp only
    rw [if_neg (by norm_num : ¬((1:ℚ) ≤ 0 ∧ (0:ℚ) ≤ 7)),
      if_pos (by norm_num : (0:ℚ) ≤ 0 ∧ (0:ℚ) ≤ 6)]
    norm_num
  · intro db cid wd bs y m hcode c hc hcid
    cases hnw : normalizeToIsoWeekday wd with
    | none =>
      exfalso
      unfold patchClassWeekday at hcode
      rw [hnw] at hcode
      simp at hcode
    | some iso =>
      by_cases hz : iso = 0
      · exfalso
        unfold patchClassWeekday at hcode
        rw [hnw] at hcode
        dsimp only at hcode
        rw [if_pos hz] at hcode
        simp at hcode
      · have hrange := normalize_some_range wd iso hnw
        have hrw : (patchClassWeekday db cid wd bs y m).db =
            insertSessionsSkip (classWeekdayUpdate db cid iso) cid
              (enumerateDatesByWeekday
                (utcNoon (patchStartYearResolve bs y m) 8 1)
                (utcNoon (patchStartYearResolve bs y m + 1) 6 14) iso) := by
          unfold patchClassWeekday
          rw [hnw]
          dsimp only
          rw [if_neg hz]
        rw [hrw, insertSessionsSkip_classes] at hc
        unfold classWeekdayUpdate at hc
        obtain ⟨c0, hc0, hfc0⟩ := List.mem_map.mp hc
        by_cases hcid0 : c0.id = cid
        · rw [if_pos hcid0] at hfc0
          rw [← hfc0]
          exact ⟨iso, rfl, hrange⟩
        · rw [if_neg hcid0] at hfc0
          rw [← hfc0] at hcid
          exact absurd hcid hcid0

/-- C7 counterexample: the claim asserts that JS-style 0 maps to Sunday
(ISO 7) and that non-integer numbers map to the null sentinel.  In the
code, 0 maps to 1 (ISO Monday) and 3.5 maps to itself. -/
theorem c7_counterexample :
    normalizeToIsoWeekday (JSVal.num 0) = some 1 ∧
    normalizeToIsoWeekday (JSVal.num (7/2)) = some (7/2) := by
  constructor
  · unfold normalizeToIsoWeekday
    dsimp only
    rw [if_neg (by norm_num : ¬((1:ℚ) ≤ 0 ∧ (0:ℚ) ≤ 7)),
      if_pos (by norm_num : (0:ℚ) ≤ 0 ∧ (0:ℚ) ≤ 6)]
    norm_num
  · unfold normalizeToIsoWeekday
    dsimp only
    rw [if_pos (by norm_num : (1:ℚ) ≤ 7/2 ∧ (7:ℚ)/2 ≤ 7)]

theorem c7_normalize_weekday_characterization_witness :
    ((1:ℕ) ≤ 3 ∧ (3:ℕ) ≤ 7) ∧
    normalizeToIsoWeekday (JSVal.num ((3:ℕ) : ℚ)) = some ((3:ℕ) : ℚ) :=
  ⟨⟨by decide, by decide⟩,
    c7_normalize_weekday_characterization.2.1 3 (by decide) (by decide)⟩

/-! ## Access guard theorems -/

/-- C8 (amended): for a non-admin subject, a missing (`NaN`) or non-integer
class or session id is answered with a 400 validation error whose outcome
is independent of the store (no authorization decision or lookup can have
contributed); a subject with role `admin`, however, bypasses the guards —
including their id validation — entirely, so the original claim's "for
every acting subject, including admins" is false (see the
counterexample). -/
theorem c8_invalid_id_rejected_before_lookup :
    (∀ (db : DB) (role : String) (uid : ℚ) (raw : Option ℚ),
      role ≠ "admin" → (raw = none ∨ ∃ q, raw = some q ∧ q.den ≠ 1) →
      ensureClassAccess db role uid raw = GuardResult.deny 400) ∧
    (∀ (db : DB) (role : String) (uid : ℚ) (raw : Option ℚ),
      role ≠ "admin" → (raw = none ∨ ∃ q, raw = some q ∧ q.den ≠ 1) →
      ensureSessionAccess db role uid raw = GuardResult.deny 400) ∧
    (∀ (db : DB) (uid : ℚ) (raw : Option ℚ),
      ensureClassAccess db "admin" uid raw = GuardResult.allow ∧
      ensureSessionAccess db "admin" uid raw = GuardResult.allow) := by
  refine ⟨?_, ?_, ?_⟩
  · intro db role uid raw hrole hraw
    unfold ensureClassAccess
    rw [if_neg hrole]
    rcases hraw with rfl | ⟨q, rfl, hq⟩
    · rfl
    · dsimp only
      rw [if_pos hq]
  · intro db role uid raw hrole hraw
    unfold ensureSessionAccess
    rw [if_neg hrole]
    rcases hraw with rfl | ⟨q, rfl, hq⟩
    · rfl
    · dsimp only
      rw [if_pos hq]
  · intro db uid raw
    constructor
    · unfold ensureClassAccess
      rw [if_pos rfl]
    · unfold ensureSessionAccess
      rw [if_pos rfl]

/-- C8 counterexample: an admin subject with a missing (`NaN`) class id is
let straight through by the guard instead of receiving the 400 validation
error the claim promises for every acting subject. -/
theorem c8_counterexample :
    ensureClassAccess (⟨[], [], [], [], [], 1, 1⟩ : DB) "admin" 1 none =
      GuardResult.allow := by decide

theorem c8_invalid_id_rejected_before_lookup_witness :
    (("prof" : String) ≠ "admin" ∧
      ((none : Option ℚ) = none ∨ ∃ q, (none : Option ℚ) = some q ∧ q.den ≠ 1)) ∧
    ensureClassAccess (⟨[], [], [], [], [], 1, 1⟩ : DB) "prof" 7 none =
      GuardResult.deny 400 :=
  ⟨⟨by decide, Or.inl rfl⟩,
    c8_invalid_id_rejected_before_lookup.1
      (⟨[], [], [], [], [], 1, 1⟩ : DB) "prof" 7 none (by decide) (Or.inl rfl)⟩

/-- C4 (amended): the access guards enforce the owner/co-manager/admin
rule on every route they are mounted on: a non-admin subject that is
neither the class's owner nor in its co-manager link set is answered 403
by `ensureClassAccess` (and by `ensureSessionAccess` for a session of that
class), while an admin subject is always let through.  The claim's
universal scope over "every mutating operation on a class or session" is
false, however: the student endpoints insert session rows for a class with
no guard at all (see the counterexample). -/
theorem c4_guard_forbids_non_managers (db : DB) (role : String) (uid q : ℚ)
    (hrole : role ≠ "admin") (hden : q.den = 1)
    (hown : ∀ c ∈ db.classes, c.id = q → c.user_id ≠ some uid)
    (hco : ∀ cu ∈ db.class_users, ¬(cu.class_id = q ∧ cu.user_id = uid)) :
    ensureClassAccess db role uid (some q) = GuardResult.deny 403 ∧
    (∀ (sq : ℚ) (srow : SessionRow), sq.den = 1 →
      findSession db sq = some srow → srow.class_id = q →
      ensureSessionAccess db role uid (some sq) = GuardResult.deny 403) ∧
    (∀ (db' : DB) (uid' : ℚ) (raw : Option ℚ),
      ensureClassAccess db' "admin" uid' raw = GuardResult.allow ∧
      ensureSessionAccess db' "admin" uid' raw = GuardResult.allow) := by
  have hany : (db.classes.any fun c => decide (c.id = q) &&
      (decide (c.user_id = some uid) ||
        db.class_users.any fun cu =>
          decide (cu.class_id = q) && decide (cu.user_id = uid))) = false := by
    rw [List.any_eq_false]
    intro c hc
    simp only [Bool.and_eq_true, Bool.or_eq_true, decide_eq_true_eq,
      List.any_eq_true, not_and, not_or]
    intro hcid
    refine ⟨hown c hc hcid, ?_⟩
    rintro ⟨cu, hcu, h1, h2⟩
    exact hco cu hcu ⟨h1, h2⟩
  have hclass : ensureClassAccess db role uid (some q) = GuardResult.deny 403 := by
    unfold ensureClassAccess
    rw [if_neg hrole]
    dsimp only
    rw [if_neg (fun h => h hden), hany]
    rfl
  refine ⟨hclass, ?_, ?_⟩
  · intro sq srow hsqden hfind hclq
    unfold ensureSessionAccess
    rw [if_neg hrole]
    dsimp only
    rw [if_neg (fun h => h hsqden), hfind]
    dsimp only
    rw [hclq]
    exact hclass
  · intro db' uid' raw
    constructor
    · unfold ensureClassAccess
      rw [if_pos rfl]
    · unfold ensureSessionAccess
      rw [if_pos rfl]

/-- C4 counterexample: subject 99 (role `prof`) is neither the owner nor a
co-manager of class 1 — the class guard itself answers 403 for them — yet
the `POST /api/students` route, which inserts session rows for the class,
carries no guard at all: it succeeds (200) and materializes a session of
class 1 on 2024-09-02 regardless of any acting subject. -/
theorem c4_counterexample :
    ensureClassAccess (⟨[⟨1, "A", none, some 5, none⟩], [], [], [], [], 1, 1⟩ : DB)
      "prof" 99 (some 1) = GuardResult.deny 403 ∧
    (postStudent (⟨[⟨1, "A", none, some 5, none⟩], [], [], [], [], 1, 1⟩ : DB)
      (some "a") (some "b") (some 1) none (JSVal.num 1) 2024 10).code = 200 ∧
    ∃ s ∈ (postStudent (⟨[⟨1, "A", none, some 5, none⟩], [], [], [], [], 1, 1⟩ : DB)
        (some "a") (some "b") (some 1) none (JSVal.num 1) 2024 10).db.sessions,
      s.class_id = 1 ∧ s.date = utcNoon 2024 8 2 := by
  refine ⟨by decide, rfl, ?_⟩
  have hps : (postStudent (⟨[⟨1, "A", none, some 5, none⟩], [], [], [], [], 1, 1⟩ : DB)
      (some "a") (some "b") (some 1) none (JSVal.num 1) 2024 10).db =
      insertSessionsSkip
        (studentInsert (⟨[⟨1, "A", none, some 5, none⟩], [], [], [], [], 1, 1⟩ : DB)
          (some "a") (some "b") (some 1) none (some 1))
        1 (enumerateDatesByWeekday (utcNoon 2024 8 1) (utcNoon 2025 6 14) 1) := rfl
  rw [hps]
  have hmem : utcNoon 2024 8 2 ∈
      enumerateDatesByWeekday (utcNoon 2024 8 1) (utcNoon 2025 6 14) (1 : ℚ) := by
    rw [show ((1:ℚ)) = ((1:ℕ) : ℚ) from by norm_num, enumerateDatesByWeekday_natCast]
    decide
  exact insertSessionsSkip_covers _ _ 1 _ hmem

theorem c4_guard_forbids_non_managers_witness :
    (("prof" : String) ≠ "admin" ∧ (1:ℚ).den = 1) ∧
    ensureClassAccess (⟨[⟨1, "A", none, some 5, none⟩], [], [], [], [], 1, 1⟩ : DB)
      "prof" 99 (some 1) = GuardResult.deny 403 :=
  ⟨⟨by decide, by decide⟩,
    (c4_guard_forbids_non_managers
      (⟨[⟨1, "A", none, some 5, none⟩], [], [], [], [], 1, 1⟩ : DB)
      "prof" 99 1 (by decide) (by decide)
      (by
        intro c hc hcid
        rw [List.mem_singleton] at hc
        subst hc
        decide)
      (by
        intro cu hcu
        exact absurd hcu (List.not_mem_nil cu))).1⟩

/-- C9 (amended): student creation and student weekday update materialize
sessions for the class over the default school-year window whenever the
supplied weekday normalizes to a truthy value: for an integer ISO weekday
`k ∈ [1,7]` the inserted rows are exactly fresh scheduled sessions of the
class on weekday `k` within the window, dates already holding a session are
skipped, and no pre-existing session row is deleted or modified; when the
weekday normalizes to the null sentinel no session is inserted.  (The
original claim's "no valid weekday ⇒ no sessions inserted" is false for
inputs like 3.5, which are truthy without being valid ISO weekdays — see
the counterexample.) -/
theorem c9_student_weekday_materializes_sessions :
    (∀ (db : DB) (fn ln : Option String) (cid : Option ℚ) (ph : Option String)
        (wd : JSVal) (y m : ℕ), normalizeToIsoWeekday wd = none →
      (postStudent db fn ln cid ph wd y m).db.sessions = db.sessions) ∧
    (∀ (db : DB) (sid : ℚ) (wd : JSVal) (y m : ℕ),
        normalizeToIsoWeekday wd = none →
      (patchStudent db sid wd y m).db.sessions = db.sessions) ∧
    (∀ (db : DB) (fn ln : Option String) (cid : ℚ) (ph : Option String)
        (y m k : ℕ), 1 ≤ k → k ≤ 7 →
      (∀ s ∈ db.sessions,
        s ∈ (postStudent db fn ln (some cid) ph (JSVal.num (k : ℚ)) y m).db.sessions) ∧
      (∀ d, utcNoon (schoolStartYear y m) 8 1 ≤ d →
        d ≤ utcNoon (schoolStartYear y m + 1) 6 14 → jsDow d = k % 7 →
        ∃ s ∈ (postStudent db fn ln (some cid) ph (JSVal.num (k : ℚ)) y m).db.sessions,
          s.class_id = cid ∧ s.date = d) ∧
      (∀ s ∈ (postStudent db fn ln (some cid) ph (JSVal.num (k : ℚ)) y m).db.sessions,
        s ∈ db.sessions ∨
          (s.class_id = cid ∧ utcNoon (schoolStartYear y m) 8 1 ≤ s.date ∧
            s.date ≤ utcNoon (schoolStartYear y m + 1) 6 14 ∧
            jsDow s.date = k % 7 ∧ s.status = "scheduled" ∧ s.note = none))) ∧
    (∀ (db : DB) (sid : ℚ) (y m k : ℕ) (srow : StudentRow) (cid : ℚ),
        1 ≤ k → k ≤ 7 →
        db.students.find? (fun s => decide (s.id = sid)) = some srow →
        srow.class_id = some cid →
      (∀ s ∈ db.sessions,
        s ∈ (patchStudent db sid (JSVal.num (k : ℚ)) y m).db.sessions) ∧
      (∀ d, utcNoon (schoolStartYear y m) 8 1 ≤ d →
        d ≤ utcNoon (schoolStartYear y m + 1) 6 14 → jsDow d = k % 7 →
        ∃ s ∈ (patchStudent db sid (JSVal.num (k : ℚ)) y m).db.sessions,
          s.class_id = cid ∧ s.date = d) ∧
      (∀ s ∈ (patchStudent db sid (JSVal.num (k : ℚ)) y m).db.sessions,
        s ∈ db.sessions ∨
          (s.class_id = cid ∧ utcNoon (schoolStartYear y m) 8 1 ≤ s.date ∧
            s.date ≤ utcNoon (schoolStartYear y m + 1) 6 14 ∧
            jsDow s.date = k % 7 ∧ s.status = "scheduled" ∧ s.note = none))) := by
  refine ⟨?_, ?_, ?_, ?_⟩
  · intro db fn ln cid ph wd y m hnw
    unfold postStudent
    rw [hnw]
    rfl
  · intro db sid wd y m hnw
    unfold patchStudent
    cases hf : db.students.find? (fun s => decide (s.id = sid)) with
    | none => rfl
    | some srow =>
      dsimp only
      rw [hnw]
      rfl
  · intro db fn ln cid ph y m k h1 h7
    have hnorm := normalize_num_natCast k h1 h7
    have hknz : ((k : ℚ)) ≠ 0 := by
      exact_mod_cast (by omega : k ≠ 0)
    have hrw : (postStudent db fn ln (some cid) ph (JSVal.num (k : ℚ)) y m).db =
        insertSessionsSkip (studentInsert db fn ln (some cid) ph (some (k : ℚ))) cid
          (enumerateDatesByWeekday (utcNoon (schoolStartYear y m) 8 1)
            (utcNoon (schoolStartYear y m + 1) 6 14) (k : ℚ)) := by
      unfold postStudent
      rw [hnorm]
      dsimp only
      rw [if_neg hknz]
      rfl
    refine ⟨?_, ?_, ?_⟩
    · intro s hs
      rw [hrw]
      exact insertSessionsSkip_mono _ _ _ s hs
    · intro d hd1 hd2 hdow
      rw [hrw]
      exact insertSessionsSkip_covers _ _ cid d
        ((mem_enumerateDatesByWeekday _ _ k d).mpr ⟨hd1, hd2, hdow⟩)
    · intro s hs
      rw [hrw] at hs
      rcases insertSessionsSkip_extraneous _ _ _ s hs with h | ⟨hc, hd, hst, hn⟩
      · exact Or.inl h
      · have hm := (mem_enumerateDatesByWeekday _ _ k s.date).mp hd
        exact Or.inr ⟨hc, hm.1, hm.2.1, hm.2.2, hst, hn⟩
  · intro db sid y m k srow cid h1 h7 hfind hcid
    have hnorm := normalize_num_natCast k h1 h7
    have hknz : ((k : ℚ)) ≠ 0 := by
      exact_mod_cast (by omega : k ≠ 0)
    have hrw : (patchStudent db sid (JSVal.num (k : ℚ)) y m).db =
        insertSessionsSkip (studentWeekdayUpdate db sid (some (k : ℚ))) cid
          (enumerateDatesByWeekday (utcNoon (schoolStartYear y m) 8 1)
            (utcNoon (schoolStartYear y m + 1) 6 14) (k : ℚ)) := by
      unfold patchStudent
      rw [hfind]
      dsimp only
      rw [hnorm]
      dsimp only
      rw [if_neg hknz, hcid]
      rfl
    refine ⟨?_, ?_, ?_⟩
    · intro s hs
      rw [hrw]
      exact insertSessionsSkip_mono _ _ _ s hs
    · intro d hd1 hd2 hdow
      rw [hrw]
      exact insertSessionsSkip_covers _ _ cid d
        ((mem_enumerateDatesByWeekday _ _ k d).mpr ⟨hd1, hd2, hdow⟩)
    · intro s hs
      rw [hrw] at hs
      rcases insertSessionsSkip_extraneous _ _ _ s hs with h | ⟨hc, hd, hst, hn⟩
      · exact Or.inl h
      · have hm := (mem_enumerateDatesByWeekday _ _ k s.date).mp hd
        exact Or.inr ⟨hc, hm.1, hm.2.1, hm.2.2, hst, hn⟩

/-- C9 counterexample: 3.5 is not a valid ISO weekday — it normalizes to
3.5 itself — so by the claim nothing should be inserted; yet creating a
student with weekday 3.5 materializes sessions (the fractional delta is
truncated by `setUTCDate`, anchoring on 2024-09-04, a Wednesday). -/
theorem c9_counterexample :
    normalizeToIsoWeekday (JSVal.num (7/2)) = some (7/2) ∧
    ∃ s ∈ (postStudent (⟨[], [], [], [], [], 1, 1⟩ : DB) none none (some 1) none
        (JSVal.num (7/2)) 2024 10).db.sessions,
      s.class_id = 1 ∧ s.date = utcNoon 2024 8 4 := by
  have hnorm : normalizeToIsoWeekday (JSVal.num (7/2)) = some (7/2) := by
    unfold normalizeToIsoWeekday
    dsimp only
    rw [if_pos (by norm_num : (1:ℚ) ≤ 7/2 ∧ (7:ℚ)/2 ≤ 7)]
  refine ⟨hnorm, ?_⟩
  have hps : (postStudent (⟨[], [], [], [], [], 1, 1⟩ : DB) none none (some 1) none
      (JSVal.num (7/2)) 2024 10).db =
      insertSessionsSkip
        (studentInsert (⟨[], [], [], [], [], 1, 1⟩ : DB) none none (some 1) none
          (some (7/2))) 1
        (enumerateDatesByWeekday (utcNoon 2024 8 1) (utcNoon 2025 6 14) (7/2)) := by
    unfold postStudent
    rw [hnorm]
    dsimp only
    rw [if_neg (by norm_num : ¬((7:ℚ)/2 = 0))]
    rfl
  rw [hps]
  have hdow : jsDow (utcNoon 2024 8 1) = 0 := by decide
  have hfirst : firstOnOrAfter (utcNoon 2024 8 1) (jsDowFromIso (7/2)) =
      utcNoon 2024 8 4 := by
    unfold firstOnOrAfter jsDowFromIso jsMod jsTrunc
    rw [hdow]
    norm_num
    decide
  have hmem : utcNoon 2024 8 4 ∈
      enumerateDatesByWeekday (utcNoon 2024 8 1) (utcNoon 2025 6 14) (7/2) := by
    unfold enumerateDatesByWeekday
    rw [hfirst]
    decide
  exact insertSessionsSkip_covers _ _ 1 _ hmem

theorem c9_student_weekday_materializes_sessions_witness :
    ((1:ℕ) ≤ 1 ∧ (1:ℕ) ≤ 7) ∧
    (∀ s ∈ (⟨[], [], [], [], [], 1, 1⟩ : DB).sessions,
      s ∈ (postStudent (⟨[], [], [], [], [], 1, 1⟩ : DB) none none (some 1) none
        (JSVal.num ((1:ℕ) : ℚ)) 2024 10).db.sessions) :=
  ⟨⟨by decide, by decide⟩,
    (c9_student_weekday_materializes_sessions.2.2.1
      (⟨[], [], [], [], [], 1, 1⟩ : DB) none none 1 none 2024 10 1
      (by decide) (by decide)).1⟩

end Pointage
